import Mathlib

/-! Shallow embedding of the diagram service (src/diagrams/diagrams.service.ts).
Diagrams are aggregates with an owner, a shared-with list and a nested
document of elements and relations, stored as ordered association lists to
mirror JavaScript object key order.  Every service operation returns the
call result together with the persisted database state; failure paths
return the database unchanged, mirroring the fact that the source throws
before any save call. -/

namespace Diagrams

/-- A user identity record; only the id field is consulted by the service. -/
structure User where
  id : Nat
deriving DecidableEq, Repr

/-- A two-dimensional position as used in element records. -/
structure Pos where
  x : Int
  y : Int
deriving DecidableEq, Repr

/-- An attribute of a class element: a name and a type tag. -/
structure Attr where
  name : String
  type : String
deriving DecidableEq, Repr

/-- An element record of the document.  All fields are optional because
JavaScript object spreads can build records missing any of them (for
example moveElement on an absent id creates a record with only a
position). -/
structure Element where
  name : Option String := none
  position : Option Pos := none
  attributes : Option (List Attr) := none
deriving DecidableEq, Repr

/-- A relation record: a directed edge between two element ids with a type
tag.  The field names fromId and toId stand for the source fields from and
to, which are reserved words in Lean. -/
structure Relation where
  fromId : String
  toId : String
  type : String
deriving DecidableEq, Repr

/-- A partial relation as accepted by updateRelation. -/
structure RelationPatch where
  fromId : Option String := none
  toId : Option String := none
  type : Option String := none
deriving DecidableEq, Repr

/-- A partial attribute as accepted by updateAttribute. -/
structure AttrPatch where
  name : Option String := none
  type : Option String := none
deriving DecidableEq, Repr

/-- The nested JSON document of a diagram.  Both maps are lazily
initialized in the source, hence the Option around each association
list. -/
structure Content where
  elements : Option (List (String × Element)) := none
  relations : Option (List (String × Relation)) := none
deriving DecidableEq, Repr

/-- The diagram aggregate row. -/
structure Diagram where
  id : Nat
  owner : User
  sharedWith : List User
  content : Content
  deleted : Bool := false
deriving DecidableEq, Repr

/-- Modelled from the spec: the UpdateDiagramDto class is not under src;
per the spec the update patch shallow-merges the content of the persisted
shape, while the owner is never part of a patch. -/
structure UpdateDiagramDto where
  content : Option Content := none
deriving DecidableEq, Repr

/-- The class payload accepted by addClass. -/
structure ClassData where
  name : String
  position : Pos
  attributes : Option (List Attr) := none
deriving DecidableEq, Repr

/-- Error taxonomy of the service: NotFoundException, ForbiddenException
and the generic JavaScript Error, each carrying its message. -/
inductive Err where
  | notFound (msg : String)
  | forbidden (msg : String)
  | error (msg : String)
deriving DecidableEq, Repr

/-- The durable store: the diagram repository rows and the user
repository rows. -/
structure DB where
  diagrams : List Diagram
  users : List User
deriving DecidableEq, Repr

instance : DecidableEq (Except Err Diagram) := fun a b =>
  match a, b with
  | Except.error x, Except.error y =>
    if h : x = y then Decidable.isTrue (h ▸ rfl)
    else Decidable.isFalse (fun hh => h (Except.error.inj hh))
  | Except.ok x, Except.ok y =>
    if h : x = y then Decidable.isTrue (h ▸ rfl)
    else Decidable.isFalse (fun hh => h (Except.ok.inj hh))
  | Except.error _, Except.ok _ => Decidable.isFalse Except.noConfusion
  | Except.ok _, Except.error _ => Decidable.isFalse Except.noConfusion

/-! Association-list primitives mirroring JavaScript object access. -/

/-- Reading obj[k]: the value of the first entry with the given key. -/
def lookupA {α : Type} : List (String × α) → String → Option α
  | [], _ => none
  | p :: ps, k => if p.1 = k then some p.2 else lookupA ps k

/-- Writing obj[k] = v: replaces the first entry with the given key in
place, or appends a new entry at the end. -/
def setA {α : Type} : List (String × α) → String → α → List (String × α)
  | [], k, v => [(k, v)]
  | p :: ps, k, v => if p.1 = k then (k, v) :: ps else p :: setA ps k v

/-- Deleting obj[k]: removes the first entry with the given key. -/
def eraseA {α : Type} : List (String × α) → String → List (String × α)
  | [], _ => []
  | p :: ps, k => if p.1 = k then ps else p :: eraseA ps k

/-- Reading list[n] on an array. -/
def nth? {α : Type} : List α → Nat → Option α
  | [], _ => none
  | a :: _, 0 => some a
  | _ :: as, n + 1 => nth? as n

/-- Writing list[n] = v on an array (in range only, as in the source). -/
def setNth {α : Type} : List α → Nat → α → List α
  | [], _, _ => []
  | _ :: as, 0, v => v :: as
  | a :: as, n + 1, v => a :: setNth as n v

/-- The splice(n, 1) call: removes the entry at index n. -/
def spliceOne {α : Type} : List α → Nat → List α
  | [], _ => []
  | _ :: as, 0 => as
  | a :: as, n + 1 => a :: spliceOne as n

/-! Repository operations. -/

/-- Finds the first non-soft-deleted diagram row with the given id. -/
def findDiagramRow : List Diagram → Nat → Option Diagram
  | [], _ => none
  | d :: ds, i => if d.id = i ∧ d.deleted = false then some d else findDiagramRow ds i

/-- The repository lookup used by findOne. -/
def findDiagram (db : DB) (i : Nat) : Option Diagram :=
  findDiagramRow db.diagrams i

/-- Finds a user row by id, as usersRepository.findOneBy does. -/
def findUserRow : List User → Nat → Option User
  | [], _ => none
  | u :: us, i => if u.id = i then some u else findUserRow us i

/-- The user lookup used by shareDiagram. -/
def findUser (db : DB) (i : Nat) : Option User :=
  findUserRow db.users i

/-- Persisting a diagram: the row with the same id is overwritten. -/
def saveDiagram (db : DB) (d : Diagram) : DB :=
  { db with diagrams := db.diagrams.map (fun e => if e.id = d.id then d else e) }

/-- The access condition of findOne: the caller is the owner or appears in
the shared-with list. -/
def canAccess (d : Diagram) (u : User) : Prop :=
  d.owner.id = u.id ∨ ∃ m ∈ d.sharedWith, m.id = u.id

instance (d : Diagram) (u : User) : Decidable (canAccess d u) := by
  unfold canAccess
  infer_instance

/-- The elements map of a diagram, empty when not yet initialized. -/
def elementsOf (d : Diagram) : List (String × Element) :=
  d.content.elements.getD []

/-- The relations map of a diagram, empty when not yet initialized. -/
def relationsOf (d : Diagram) : List (String × Relation) :=
  d.content.relations.getD []

/-! Service operations.  Each operation returns the call result paired with
the database state after the call; throw sites return the incoming
database unchanged, and the single save at the end of each success path
persists the mutated aggregate. -/

namespace DiagramsService

/-- The findOne service method: loads the diagram with owner and
sharedWith populated, throws NotFound if absent and Forbidden if the
caller has no access. -/
def findOne (db : DB) (i : Nat) (user : User) : Except Err Diagram :=
  match findDiagram db i with
  | none => Except.error (Err.notFound "Diagram not found")
  | some diagram =>
    if canAccess diagram user then Except.ok diagram
    else Except.error (Err.forbidden "Access denied")

/-- The update service method: shallow-merges the patch onto the aggregate
and saves. -/
def update (db : DB) (i : Nat) (dto : UpdateDiagramDto) (user : User) :
    Except Err Diagram × DB :=
  match findOne db i user with
  | Except.error e => (Except.error e, db)
  | Except.ok diagram =>
    let d := { diagram with content := dto.content.getD diagram.content }
    (Except.ok d, saveDiagram db d)

/-- The remove service method: soft-deletes the aggregate. -/
def remove (db : DB) (i : Nat) (user : User) : Except Err Diagram × DB :=
  match findOne db i user with
  | Except.error e => (Except.error e, db)
  | Except.ok diagram =>
    let d := { diagram with deleted := true }
    (Except.ok d, saveDiagram db d)

/-- The shareDiagram service method: owner-only, resolves the target user
and appends it to sharedWith without any dedup check. -/
def shareDiagram (db : DB) (diagramId : Nat) (userId : Nat) (owner : User) :
    Except Err Diagram × DB :=
  match findOne db diagramId owner with
  | Except.error e => (Except.error e, db)
  | Except.ok diagram =>
    if diagram.owner.id = owner.id then
      match findUser db userId with
      | none => (Except.error (Err.notFound "User to share not found"), db)
      | some userToShare =>
        let d := { diagram with sharedWith := diagram.sharedWith ++ [userToShare] }
        (Except.ok d, saveDiagram db d)
    else
      (Except.error (Err.forbidden "Only the owner can share the diagram"), db)

/-- The spread merge of a partial element record onto an existing one:
fields present in the patch win, absent fields keep the old value. -/
def mergeElement (old elementData : Element) : Element :=
  { name := match elementData.name with
      | some n => some n
      | none => old.name,
    position := match elementData.position with
      | some p => some p
      | none => old.position,
    attributes := match elementData.attributes with
      | some l => some l
      | none => old.attributes }

/-- The updateElement service method: merges partial fields into the
element record, creating it (merge against an empty record) when
absent. -/
def updateElement (db : DB) (diagramId : Nat) (elementId : String)
    (elementData : Element) (user : User) : Except Err Diagram × DB :=
  match findOne db diagramId user with
  | Except.error e => (Except.error e, db)
  | Except.ok diagram =>
    let els := elementsOf diagram
    let old := (lookupA els elementId).getD {}
    let d := { diagram with content :=
      { diagram.content with elements := some (setA els elementId (mergeElement old elementData)) } }
    (Except.ok d, saveDiagram db d)

/-- The moveElement service method: delegates to updateElement with a
patch holding only the position. -/
def moveElement (db : DB) (diagramId : Nat) (elementId : String)
    (position : Pos) (user : User) : Except Err Diagram × DB :=
  updateElement db diagramId elementId { position := some position } user

/-- The addAttribute service method: appends an attribute to the class,
lazily creating the attribute list. -/
def addAttribute (db : DB) (diagramId : Nat) (classId : String)
    (attr : Attr) (user : User) : Except Err Diagram × DB :=
  match findOne db diagramId user with
  | Except.error e => (Except.error e, db)
  | Except.ok diagram =>
    let els := elementsOf diagram
    match lookupA els classId with
    | none => (Except.error (Err.notFound "Class not found in diagram"), db)
    | some classElem =>
      let attrs := classElem.attributes.getD []
      let els2 := setA els classId { classElem with attributes := some (attrs ++ [attr]) }
      let d := { diagram with content := { diagram.content with elements := some els2 } }
      (Except.ok d, saveDiagram db d)

/-- The spread merge of an attribute patch onto an attribute. -/
def mergeAttr (old : Attr) (newData : AttrPatch) : Attr :=
  { name := newData.name.getD old.name, type := newData.type.getD old.type }

/-- The updateAttribute service method: merges partial fields onto the
attribute at the given index, throwing NotFound when the class or the
attribute slot is absent. -/
def updateAttribute (db : DB) (diagramId : Nat) (classId : String)
    (attrIndex : Nat) (newData : AttrPatch) (user : User) : Except Err Diagram × DB :=
  match findOne db diagramId user with
  | Except.error e => (Except.error e, db)
  | Except.ok diagram =>
    let els := elementsOf diagram
    match lookupA els classId with
    | none => (Except.error (Err.notFound "Attribute not found"), db)
    | some classElem =>
      let attrs := classElem.attributes.getD []
      match nth? attrs attrIndex with
      | none => (Except.error (Err.notFound "Attribute not found"), db)
      | some a =>
        let els2 := setA els classId
          { classElem with attributes := some (setNth attrs attrIndex (mergeAttr a newData)) }
        let d := { diagram with content := { diagram.content with elements := some els2 } }
        (Except.ok d, saveDiagram db d)

/-- The removeAttribute service method: splices out the attribute at the
given index, throwing NotFound when the class or the attribute slot is
absent. -/
def removeAttribute (db : DB) (diagramId : Nat) (classId : String)
    (attrIndex : Nat) (user : User) : Except Err Diagram × DB :=
  match findOne db diagramId user with
  | Except.error e => (Except.error e, db)
  | Except.ok diagram =>
    let els := elementsOf diagram
    match lookupA els classId with
    | none => (Except.error (Err.notFound "Attribute not found"), db)
    | some classElem =>
      let attrs := classElem.attributes.getD []
      match nth? attrs attrIndex with
      | none => (Except.error (Err.notFound "Attribute not found"), db)
      | some _ =>
        let els2 := setA els classId
          { classElem with attributes := some (spliceOne attrs attrIndex) }
        let d := { diagram with content := { diagram.content with elements := some els2 } }
        (Except.ok d, saveDiagram db d)

/-- The addClass service method: rejects a duplicate class id, otherwise
inserts the element with attributes defaulted to the empty list. -/
def addClass (db : DB) (diagramId : Nat) (classId : String)
    (classData : ClassData) (user : User) : Except Err Diagram × DB :=
  match findOne db diagramId user with
  | Except.error e => (Except.error e, db)
  | Except.ok diagram =>
    let els := elementsOf diagram
    match lookupA els classId with
    | some _ => (Except.error (Err.error "Class already exists"), db)
    | none =>
      let el : Element :=
        { name := some classData.name,
          position := some classData.position,
          attributes := some (classData.attributes.getD []) }
      let d := { diagram with content :=
        { diagram.content with elements := some (setA els classId el) } }
      (Except.ok d, saveDiagram db d)

/-- The cascade loop of removeClass: drops every relation entry whose from
or to field equals the removed class id. -/
def cascadeRelations : List (String × Relation) → String → List (String × Relation)
  | [], _ => []
  | p :: ps, cid =>
    if p.2.fromId = cid ∨ p.2.toId = cid then cascadeRelations ps cid
    else p :: cascadeRelations ps cid

/-- The removeClass service method: rejects an absent class id, otherwise
deletes the element and cascades over the relations map. -/
def removeClass (db : DB) (diagramId : Nat) (classId : String) (user : User) :
    Except Err Diagram × DB :=
  match findOne db diagramId user with
  | Except.error e => (Except.error e, db)
  | Except.ok diagram =>
    let els := elementsOf diagram
    match lookupA els classId with
    | none => (Except.error (Err.error "Class not found"), db)
    | some _ =>
      let rels := match diagram.content.relations with
        | none => none
        | some rs => some (cascadeRelations rs classId)
      let d := { diagram with content :=
        { elements := some (eraseA els classId), relations := rels } }
      (Except.ok d, saveDiagram db d)

/-- The addRelation service method: rejects a duplicate relation id,
otherwise inserts the relation record. -/
def addRelation (db : DB) (diagramId : Nat) (relationId : String)
    (relationData : Relation) (user : User) : Except Err Diagram × DB :=
  match findOne db diagramId user with
  | Except.error e => (Except.error e, db)
  | Except.ok diagram =>
    let rels := relationsOf diagram
    match lookupA rels relationId with
    | some _ => (Except.error (Err.error "Relation already exists"), db)
    | none =>
      let d := { diagram with content :=
        { diagram.content with relations := some (setA rels relationId relationData) } }
      (Except.ok d, saveDiagram db d)

/-- The spread merge of a relation patch onto a relation. -/
def mergeRelation (old : Relation) (p : RelationPatch) : Relation :=
  { fromId := p.fromId.getD old.fromId,
    toId := p.toId.getD old.toId,
    type := p.type.getD old.type }

/-- The updateRelation service method: rejects an absent relation id,
otherwise merges the partial fields onto the relation record. -/
def updateRelation (db : DB) (diagramId : Nat) (relationId : String)
    (relationData : RelationPatch) (user : User) : Except Err Diagram × DB :=
  match findOne db diagramId user with
  | Except.error e => (Except.error e, db)
  | Except.ok diagram =>
    let rels := relationsOf diagram
    match lookupA rels relationId with
    | none => (Except.error (Err.error "Relation not found"), db)
    | some r =>
      let rels2 := setA rels relationId (mergeRelation r relationData)
      let d := { diagram with content := { diagram.content with relations := some rels2 } }
      (Except.ok d, saveDiagram db d)

/-- The removeRelation service method: rejects an absent relation id,
otherwise deletes the relation record. -/
def removeRelation (db : DB) (diagramId : Nat) (relationId : String)
    (user : User) : Except Err Diagram × DB :=
  match findOne db diagramId user with
  | Except.error e => (Except.error e, db)
  | Except.ok diagram =>
    let rels := relationsOf diagram
    match lookupA rels relationId with
    | none => (Except.error (Err.error "Relation not found"), db)
    | some _ =>
      let d := { diagram with content :=
        { diagram.content with relations := some (eraseA rels relationId) } }
      (Except.ok d, saveDiagram db d)

end DiagramsService

/-! Lemmas about the association-list and array primitives. -/

theorem lookupA_setA_self {α : Type} (m : List (String × α)) (k : String) (v : α) :
    lookupA (setA m k v) k = some v := by
  induction m with
  | nil => simp [setA, lookupA]
  | cons p ps ih =>
    by_cases h : p.1 = k
    · simp [setA, lookupA, h]
    · simp [setA, lookupA, h, ih]

theorem lookupA_setA_ne {α : Type} (m : List (String × α)) {k k' : String}
    (v : α) (h : k' ≠ k) : lookupA (setA m k v) k' = lookupA m k' := by
  have hkk : ¬ k = k' := fun hh => h hh.symm
  induction m with
  | nil => simp [setA, lookupA, hkk]
  | cons p ps ih =>
    by_cases hp : p.1 = k
    · simp [setA, lookupA, hp, hkk]
    · by_cases hq : p.1 = k'
      · simp [setA, lookupA, hp, hq, h]
      · simp [setA, lookupA, hp, hq, ih]

theorem lookupA_eq_none_of_not_mem {α : Type} (m : List (String × α)) (k : String)
    (h : k ∉ m.map Prod.fst) : lookupA m k = none := by
  induction m with
  | nil => simp [lookupA]
  | cons p ps ih =>
    simp only [List.map_cons, List.mem_cons] at h
    push_neg at h
    have hpk : ¬ p.1 = k := fun hh => h.1 hh.symm
    simp [lookupA, hpk, ih h.2]

theorem lookupA_eraseA_self {α : Type} (m : List (String × α)) (k : String)
    (h : (m.map Prod.fst).Nodup) : lookupA (eraseA m k) k = none := by
  induction m with
  | nil => simp [eraseA, lookupA]
  | cons p ps ih =>
    simp only [List.map_cons, List.nodup_cons] at h
    by_cases hp : p.1 = k
    · simp only [eraseA, hp, if_pos]
      exact lookupA_eq_none_of_not_mem ps k (hp ▸ h.1)
    · simp [eraseA, lookupA, hp, ih h.2]

theorem lookupA_eraseA_ne {α : Type} (m : List (String × α)) {k k' : String}
    (h : k' ≠ k) : lookupA (eraseA m k) k' = lookupA m k' := by
  have hkk : ¬ k = k' := fun hh => h hh.symm
  induction m with
  | nil => simp [eraseA, lookupA]
  | cons p ps ih =>
    by_cases hp : p.1 = k
    · simp [eraseA, lookupA, hp, hkk]
    · by_cases hq : p.1 = k'
      · simp [eraseA, lookupA, hp, hq, h]
      · simp [eraseA, lookupA, hp, hq, ih]

theorem lookupA_cascade_of_not_ref (m : List (String × Relation)) (cid k : String)
    (r : Relation) (hl : lookupA m k = some r)
    (hr : ¬ (r.fromId = cid ∨ r.toId = cid)) :
    lookupA (DiagramsService.cascadeRelations m cid) k = some r := by
  induction m with
  | nil => simp [lookupA] at hl
  | cons p ps ih =>
    by_cases hp : p.1 = k
    · simp only [lookupA, hp, if_pos, Option.some.injEq] at hl
      subst hl
      simp [DiagramsService.cascadeRelations, hr, lookupA, hp]
    · simp only [lookupA, hp, if_neg, ite_false] at hl
      by_cases hc : p.2.fromId = cid ∨ p.2.toId = cid
      · simp [DiagramsService.cascadeRelations, hc, ih hl]
      · simp [DiagramsService.cascadeRelations, hc, lookupA, hp, ih hl]

theorem lookupA_cascade_none (m : List (String × Relation)) (cid k : String)
    (hl : lookupA m k = none) :
    lookupA (DiagramsService.cascadeRelations m cid) k = none := by
  induction m with
  | nil => simp [DiagramsService.cascadeRelations, lookupA]
  | cons p ps ih =>
    by_cases hp : p.1 = k
    · simp [lookupA, hp] at hl
    · simp only [lookupA, hp, if_neg, ite_false] at hl
      by_cases hc : p.2.fromId = cid ∨ p.2.toId = cid
      · simp [DiagramsService.cascadeRelations, hc, ih hl]
      · simp [DiagramsService.cascadeRelations, hc, lookupA, hp, ih hl]

theorem lookupA_cascade_of_ref (m : List (String × Relation)) (cid k : String)
    (r : Relation) (hn : (m.map Prod.fst).Nodup) (hl : lookupA m k = some r)
    (hr : r.fromId = cid ∨ r.toId = cid) :
    lookupA (DiagramsService.cascadeRelations m cid) k = none := by
  induction m with
  | nil => simp [lookupA] at hl
  | cons p ps ih =>
    simp only [List.map_cons, List.nodup_cons] at hn
    by_cases hp : p.1 = k
    · simp only [lookupA, hp, if_pos, Option.some.injEq] at hl
      subst hl
      have hks : k ∉ ps.map Prod.fst := hp ▸ hn.1
      have hnone := lookupA_cascade_none ps cid k (lookupA_eq_none_of_not_mem ps k hks)
      simp [DiagramsService.cascadeRelations, hr, hnone]
    · simp only [lookupA, hp, if_neg, ite_false] at hl
      by_cases hc : p.2.fromId = cid ∨ p.2.toId = cid
      · simp [DiagramsService.cascadeRelations, hc, ih hn.2 hl]
      · simp [DiagramsService.cascadeRelations, hc, lookupA, hp, ih hn.2 hl]

theorem nth?_eq_none_iff {α : Type} (l : List α) (n : Nat) :
    nth? l n = none ↔ l.length ≤ n := by
  induction l generalizing n with
  | nil => simp [nth?]
  | cons a as ih =>
    cases n with
    | zero => simp [nth?]
    | succ n => simpa [nth?, Nat.succ_le_succ_iff] using ih n

theorem nth?_eq_some_of_lt {α : Type} (l : List α) (n : Nat) (h : n < l.length) :
    ∃ a, nth? l n = some a := by
  cases hx : nth? l n with
  | none =>
    rw [nth?_eq_none_iff] at hx
    omega
  | some a => exact ⟨a, rfl⟩

theorem length_spliceOne {α : Type} (l : List α) (n : Nat) (h : n < l.length) :
    (spliceOne l n).length + 1 = l.length := by
  induction l generalizing n with
  | nil => simp at h
  | cons a as ih =>
    cases n with
    | zero => simp [spliceOne]
    | succ n =>
      have := ih n (by simpa [Nat.succ_lt_succ_iff] using h)
      simp [spliceOne]
      omega

theorem nth?_spliceOne_lt {α : Type} (l : List α) (n j : Nat) (h : j < n) :
    nth? (spliceOne l n) j = nth? l j := by
  induction l generalizing n j with
  | nil => simp [spliceOne]
  | cons a as ih =>
    cases n with
    | zero => omega
    | succ n =>
      cases j with
      | zero => simp [spliceOne, nth?]
      | succ j =>
        simp only [spliceOne, nth?]
        exact ih n j (by omega)

theorem nth?_spliceOne_ge {α : Type} (l : List α) (n j : Nat)
    (hn : n < l.length) (h : n ≤ j) :
    nth? (spliceOne l n) j = nth? l (j + 1) := by
  induction l generalizing n j with
  | nil => simp at hn
  | cons a as ih =>
    cases n with
    | zero => simp [spliceOne, nth?]
    | succ n =>
      cases j with
      | zero => omega
      | succ j =>
        simp only [spliceOne, nth?]
        exact ih n j (by simpa [Nat.succ_lt_succ_iff] using hn) (by omega)

/-! Lemmas about the repository and the findOne access check. -/

theorem findDiagramRow_props (l : List Diagram) (i : Nat) (d : Diagram)
    (h : findDiagramRow l i = some d) : d.id = i ∧ d.deleted = false := by
  induction l with
  | nil => simp [findDiagramRow] at h
  | cons e es ih =>
    by_cases he : e.id = i ∧ e.deleted = false
    · simp only [findDiagramRow, if_pos he, Option.some.injEq] at h
      subst h
      exact he
    · simp only [findDiagramRow, he, ite_false] at h
      exact ih h

theorem findDiagram_props (db : DB) (i : Nat) (d : Diagram)
    (h : findDiagram db i = some d) : d.id = i ∧ d.deleted = false :=
  findDiagramRow_props db.diagrams i d h

theorem findDiagramRow_save (l : List Diagram) (i : Nat) (d d' : Diagram)
    (h : findDiagramRow l i = some d) (hid : d'.id = i) (hdel : d'.deleted = false) :
    findDiagramRow (l.map (fun e => if e.id = d'.id then d' else e)) i = some d' := by
  induction l with
  | nil => simp [findDiagramRow] at h
  | cons e es ih =>
    by_cases hm : e.id = d'.id
    · have hcond : d'.id = i ∧ d'.deleted = false := ⟨hid, hdel⟩
      simp [findDiagramRow, hm, hcond]
    · have hni : ¬ e.id = i := fun hh => hm (hh.trans hid.symm)
      have hcond : ¬ (e.id = i ∧ e.deleted = false) := fun hh => hni hh.1
      simp only [findDiagramRow, hcond, ite_false] at h
      simp [findDiagramRow, hm, hcond, ih h]

theorem findDiagram_save (db : DB) (i : Nat) (d d' : Diagram)
    (h : findDiagram db i = some d) (hid : d'.id = i) (hdel : d'.deleted = false) :
    findDiagram (saveDiagram db d') i = some d' :=
  findDiagramRow_save db.diagrams i d d' h hid hdel

theorem findOne_ok {db : DB} {i : Nat} {u : User} {d : Diagram}
    (hd : findDiagram db i = some d) (hacc : canAccess d u) :
    DiagramsService.findOne db i u = Except.ok d := by
  simp [DiagramsService.findOne, hd, hacc]

theorem findOne_forbidden {db : DB} {i : Nat} {u : User} {d : Diagram}
    (hd : findDiagram db i = some d) (hacc : ¬ canAccess d u) :
    DiagramsService.findOne db i u = Except.error (Err.forbidden "Access denied") := by
  simp [DiagramsService.findOne, hd, hacc]

theorem findOne_notFound {db : DB} {i : Nat} {u : User}
    (hd : findDiagram db i = none) :
    DiagramsService.findOne db i u = Except.error (Err.notFound "Diagram not found") := by
  simp [DiagramsService.findOne, hd]

theorem findOne_ok_inv {db : DB} {i : Nat} {u : User} {d : Diagram}
    (h : DiagramsService.findOne db i u = Except.ok d) :
    findDiagram db i = some d ∧ canAccess d u := by
  unfold DiagramsService.findOne at h
  cases hd : findDiagram db i with
  | none => simp [hd] at h
  | some d₀ =>
    rw [hd] at h
    by_cases hacc : canAccess d₀ u
    · simp only [if_pos hacc, Except.ok.injEq] at h
      subst h
      exact ⟨rfl, hacc⟩
    · simp [hacc] at h

/-! Concrete sample data used to instantiate the theorems. -/

/-- The sample owner of the sample diagram. -/
def sampleOwner : User := ⟨1⟩

/-- A sample user the sample diagram is shared with. -/
def sampleCollab : User := ⟨2⟩

/-- A sample user without any access to the sample diagram. -/
def sampleStranger : User := ⟨3⟩

/-- A sample attribute list with three attributes. -/
def sampleAttrs : List Attr :=
  [⟨"speed", "number"⟩, ⟨"x", "int"⟩, ⟨"y", "int"⟩]

/-- A sample diagram with two classes and three relations, two of which
reference class A. -/
def sampleDiagram : Diagram :=
  { id := 10, owner := sampleOwner, sharedWith := [sampleCollab],
    content :=
      { elements := some
          [("A", { name := some "ClassA", position := some ⟨0, 0⟩,
                   attributes := some sampleAttrs }),
           ("B", { name := some "ClassB", position := some ⟨1, 1⟩,
                   attributes := some [] })],
        relations := some
          [("r1", ⟨"A", "B", "assoc"⟩),
           ("r2", ⟨"C", "A", "dep"⟩),
           ("r3", ⟨"B", "C", "agg"⟩)] } }

/-- The sample database holding the sample diagram and three users. -/
def sampleDb : DB :=
  { diagrams := [sampleDiagram], users := [sampleOwner, sampleCollab, sampleStranger] }

/-- A sample diagram whose document is still uninitialized. -/
def emptyDiagram : Diagram :=
  { id := 100, owner := sampleOwner, sharedWith := [], content := {} }

/-- A sample database holding only the uninitialized diagram. -/
def emptyDb : DB := { diagrams := [emptyDiagram], users := [sampleOwner] }

/-! Helper constructors naming the records built by the success paths. -/

/-- The element record inserted by addClass. -/
def insertedClass (cd : ClassData) : Element :=
  { name := some cd.name, position := some cd.position,
    attributes := some (cd.attributes.getD []) }

/-- A diagram with its elements map replaced. -/
def withElements (d : Diagram) (els : List (String × Element)) : Diagram :=
  { d with content := { d.content with elements := some els } }

/-! Claim theorems. -/

/-- C1: findOne returns the stored diagram exactly when the caller is its
owner or a member of its sharedWith list; it fails with NotFound when no
diagram with the id exists, and with Forbidden when the diagram exists but
the caller is neither the owner nor in sharedWith. -/
theorem findOne_access_spec (db : DB) (i : Nat) (u : User) :
    (findDiagram db i = none →
      DiagramsService.findOne db i u = Except.error (Err.notFound "Diagram not found")) ∧
    ∀ d, findDiagram db i = some d →
      (DiagramsService.findOne db i u = Except.ok d ↔
        (d.owner.id = u.id ∨ ∃ m ∈ d.sharedWith, m.id = u.id)) ∧
      (¬ (d.owner.id = u.id ∨ ∃ m ∈ d.sharedWith, m.id = u.id) →
        DiagramsService.findOne db i u = Except.error (Err.forbidden "Access denied")) := by
  refine ⟨fun hd => findOne_notFound hd, fun d hd => ⟨⟨fun hok => ?_, fun hacc => ?_⟩, fun hacc => ?_⟩⟩
  · exact (findOne_ok_inv hok).2
  · exact findOne_ok hd hacc
  · exact findOne_forbidden hd hacc

/-- Witness for C1 at the sample database: access for a shared user,
Forbidden for a stranger, NotFound for a missing id. -/
theorem findOne_access_spec_witness :
    DiagramsService.findOne sampleDb 10 sampleCollab = Except.ok sampleDiagram ∧
    DiagramsService.findOne sampleDb 10 sampleStranger =
      Except.error (Err.forbidden "Access denied") ∧
    DiagramsService.findOne sampleDb 11 sampleOwner =
      Except.error (Err.notFound "Diagram not found") :=
  ⟨((findOne_access_spec sampleDb 10 sampleCollab).2 sampleDiagram (by decide)).1.mpr
      (by decide),
   ((findOne_access_spec sampleDb 10 sampleStranger).2 sampleDiagram (by decide)).2
      (by decide),
   (findOne_access_spec sampleDb 11 sampleOwner).1 (by decide)⟩

/-- C2: for an authorized caller, removeClass deletes the element at the
class id and exactly those relations whose from or to field equals the
class id, leaving every other element and every other relation unchanged;
it fails with a generic error when the class id is absent. -/
theorem removeClass_cascade_spec (db : DB) (i : Nat) (cid : String) (u : User)
    (d : Diagram) (hd : findDiagram db i = some d) (hacc : canAccess d u)
    (hnE : ((elementsOf d).map Prod.fst).Nodup)
    (hnR : ((relationsOf d).map Prod.fst).Nodup) :
    (lookupA (elementsOf d) cid = none →
      (DiagramsService.removeClass db i cid u).1 = Except.error (Err.error "Class not found")) ∧
    ∀ el, lookupA (elementsOf d) cid = some el →
      ∃ d', (DiagramsService.removeClass db i cid u).1 = Except.ok d' ∧
        lookupA (elementsOf d') cid = none ∧
        (∀ k, k ≠ cid → lookupA (elementsOf d') k = lookupA (elementsOf d) k) ∧
        (∀ k r, lookupA (relationsOf d) k = some r →
          ((r.fromId = cid ∨ r.toId = cid) → lookupA (relationsOf d') k = none) ∧
          (¬ (r.fromId = cid ∨ r.toId = cid) → lookupA (relationsOf d') k = some r)) ∧
        (∀ k, lookupA (relationsOf d) k = none → lookupA (relationsOf d') k = none) := by
  have hfo := findOne_ok hd hacc
  constructor
  · intro hnone
    simp [DiagramsService.removeClass, hfo, hnone]
  · intro el hel
    refine ⟨{ d with content :=
        { elements := some (eraseA (elementsOf d) cid),
          relations := match d.content.relations with
            | none => none
            | some rs => some (DiagramsService.cascadeRelations rs cid) } },
      ?_, ?_, ?_, ?_, ?_⟩
    · simp only [DiagramsService.removeClass, hfo, hel]
    · simpa [elementsOf] using lookupA_eraseA_self (elementsOf d) cid hnE
    · intro k hk
      simpa [elementsOf] using lookupA_eraseA_ne (elementsOf d) (Ne.symm (Ne.symm hk))
    · intro k r hr
      cases hrel : d.content.relations with
      | none =>
        rw [relationsOf, hrel] at hr
        simp [lookupA] at hr
      | some rs =>
        rw [relationsOf, hrel] at hr
        simp only [Option.getD_some] at hr
        constructor
        · intro href
          have := lookupA_cascade_of_ref rs cid k r (by rwa [relationsOf, hrel] at hnR) hr href
          simp [relationsOf, hrel, this]
        · intro href
          have := lookupA_cascade_of_not_ref rs cid k r hr href
          simp [relationsOf, hrel, this]
    · intro k hr
      cases hrel : d.content.relations with
      | none => simp [relationsOf, hrel, lookupA]
      | some rs =>
        rw [relationsOf, hrel] at hr
        simp only [Option.getD_some] at hr
        have := lookupA_cascade_none rs cid k hr
        simp [relationsOf, hrel, this]

/-- Witness for C2 at the sample database: removing class A deletes the
element A together with relations r1 and r2, while element B and relation
r3 survive. -/
theorem removeClass_cascade_spec_witness :
    ∃ d', (DiagramsService.removeClass sampleDb 10 "A" sampleCollab).1 = Except.ok d' ∧
      lookupA (elementsOf d') "A" = none ∧
      (∀ k, k ≠ "A" → lookupA (elementsOf d') k = lookupA (elementsOf sampleDiagram) k) ∧
      (∀ k r, lookupA (relationsOf sampleDiagram) k = some r →
        ((r.fromId = "A" ∨ r.toId = "A") → lookupA (relationsOf d') k = none) ∧
        (¬ (r.fromId = "A" ∨ r.toId = "A") → lookupA (relationsOf d') k = some r)) ∧
      (∀ k, lookupA (relationsOf sampleDiagram) k = none → lookupA (relationsOf d') k = none) :=
  (removeClass_cascade_spec sampleDb 10 "A" sampleCollab sampleDiagram
      (by decide) (by decide) (by decide) (by decide)).2
    { name := some "ClassA", position := some ⟨0, 0⟩, attributes := some sampleAttrs }
    (by decide)

/-- C3: shareDiagram called by anyone other than the owner fails with
Forbidden, even when the caller is a member of sharedWith; when the caller
is the owner but the target user id does not exist, it fails with
NotFound. -/
theorem shareDiagram_owner_only_spec (db : DB) (i target : Nat) (u : User)
    (d : Diagram) (hd : findDiagram db i = some d) :
    (u.id ≠ d.owner.id →
      (∃ msg, (DiagramsService.shareDiagram db i target u).1 =
        Except.error (Err.forbidden msg)) ∧
      (canAccess d u →
        (DiagramsService.shareDiagram db i target u).1 =
          Except.error (Err.forbidden "Only the owner can share the diagram"))) ∧
    (u.id = d.owner.id → findUser db target = none →
      (DiagramsService.shareDiagram db i target u).1 =
        Except.error (Err.notFound "User to share not found")) := by
  constructor
  · intro hne
    have hshared : canAccess d u →
        (DiagramsService.shareDiagram db i target u).1 =
          Except.error (Err.forbidden "Only the owner can share the diagram") := by
      intro hacc
      have hfo := findOne_ok hd hacc
      have hno : ¬ d.owner.id = u.id := fun hh => hne hh.symm
      simp [DiagramsService.shareDiagram, hfo, hno]
    refine ⟨?_, hshared⟩
    by_cases hacc : canAccess d u
    · exact ⟨"Only the owner can share the diagram", hshared hacc⟩
    · have hfo := findOne_forbidden hd hacc
      exact ⟨"Access denied", by simp [DiagramsService.shareDiagram, hfo]⟩
  · intro heq hfu
    have hacc : canAccess d u := Or.inl heq.symm
    have hfo := findOne_ok hd hacc
    have hown : d.owner.id = u.id := heq.symm
    simp [DiagramsService.shareDiagram, hfo, hown, hfu]

/-- Witness for C3 at the sample database: the shared collaborator cannot
share, and the owner sharing with a missing user id gets NotFound. -/
theorem shareDiagram_owner_only_spec_witness :
    (DiagramsService.shareDiagram sampleDb 10 3 sampleCollab).1 =
      Except.error (Err.forbidden "Only the owner can share the diagram") ∧
    (DiagramsService.shareDiagram sampleDb 10 99 sampleOwner).1 =
      Except.error (Err.notFound "User to share not found") :=
  ⟨((shareDiagram_owner_only_spec sampleDb 10 3 sampleCollab sampleDiagram
      (by decide)).1 (by decide)).2 (by decide),
   (shareDiagram_owner_only_spec sampleDb 10 99 sampleOwner sampleDiagram
      (by decide)).2 (by decide) (by decide)⟩

/-- C4: addClass rejects a class id that is already present, changing
nothing, and otherwise inserts the element with attributes defaulted to
the empty list; calling it twice with the same class id yields success
then a conflict error. -/
theorem addClass_conflict_spec (db : DB) (i : Nat) (cid : String) (cd : ClassData)
    (u : User) (d : Diagram) (hd : findDiagram db i = some d) (hacc : canAccess d u) :
    (∀ el, lookupA (elementsOf d) cid = some el →
      DiagramsService.addClass db i cid cd u =
        (Except.error (Err.error "Class already exists"), db)) ∧
    (lookupA (elementsOf d) cid = none →
      ∃ d', DiagramsService.addClass db i cid cd u = (Except.ok d', saveDiagram db d') ∧
        lookupA (elementsOf d') cid =
          some { name := some cd.name, position := some cd.position,
                 attributes := some (cd.attributes.getD []) } ∧
        (cd.attributes = none →
          lookupA (elementsOf d') cid =
            some { name := some cd.name, position := some cd.position,
                   attributes := some ([] : List Attr) }) ∧
        ∀ cd₂, (DiagramsService.addClass
            (DiagramsService.addClass db i cid cd u).2 i cid cd₂ u).1 =
          Except.error (Err.error "Class already exists")) := by
  have hfo := findOne_ok hd hacc
  constructor
  · intro el hel
    simp [DiagramsService.addClass, hfo, hel]
  · intro hnone
    have hprops := findDiagram_props db i d hd
    refine ⟨withElements d (setA (elementsOf d) cid (insertedClass cd)), ?_, ?_, ?_, ?_⟩
    · simp only [DiagramsService.addClass, hfo, hnone, withElements, insertedClass]
    · simpa [elementsOf, withElements, insertedClass]
        using lookupA_setA_self (elementsOf d) cid (insertedClass cd)
    · intro hattr
      simpa [elementsOf, withElements, insertedClass, hattr]
        using lookupA_setA_self (elementsOf d) cid (insertedClass cd)
    · intro cd₂
      have hpair : DiagramsService.addClass db i cid cd u =
          (Except.ok (withElements d (setA (elementsOf d) cid (insertedClass cd))),
            saveDiagram db (withElements d (setA (elementsOf d) cid (insertedClass cd)))) := by
        simp only [DiagramsService.addClass, hfo, hnone, withElements, insertedClass]
      have hd2 : findDiagram
          (saveDiagram db (withElements d (setA (elementsOf d) cid (insertedClass cd)))) i =
          some (withElements d (setA (elementsOf d) cid (insertedClass cd))) :=
        findDiagram_save db i d _ hd hprops.1 hprops.2
      have hacc2 : canAccess (withElements d (setA (elementsOf d) cid (insertedClass cd))) u :=
        hacc
      have hfo2 := findOne_ok hd2 hacc2
      have hel2 := lookupA_setA_self (elementsOf d) cid (insertedClass cd)
      rw [hpair]
      have hel3 : lookupA
          (elementsOf (withElements d (setA (elementsOf d) cid (insertedClass cd)))) cid =
          some (insertedClass cd) := by
        simpa [elementsOf, withElements] using hel2
      simp only [DiagramsService.addClass, withElements, elementsOf, Option.getD_some]
        at hfo2 hel3 ⊢
      simp [hfo2, hel3]

/-- Witness for C4 at the sample database: adding class C succeeds with an
empty attribute list and a second add of class C is rejected. -/
theorem addClass_conflict_spec_witness :
    ∃ d', DiagramsService.addClass sampleDb 10 "C" ⟨"ClassC", ⟨2, 2⟩, none⟩ sampleOwner =
        (Except.ok d', saveDiagram sampleDb d') ∧
      lookupA (elementsOf d') "C" =
        some { name := some "ClassC", position := some ⟨2, 2⟩,
               attributes := some ((none : Option (List Attr)).getD []) } ∧
      ((none : Option (List Attr)) = none →
        lookupA (elementsOf d') "C" =
          some { name := some "ClassC", position := some ⟨2, 2⟩,
                 attributes := some ([] : List Attr) }) ∧
      ∀ cd₂, (DiagramsService.addClass
          (DiagramsService.addClass sampleDb 10 "C" ⟨"ClassC", ⟨2, 2⟩, none⟩ sampleOwner).2
          10 "C" cd₂ sampleOwner).1 =
        Except.error (Err.error "Class already exists") :=
  (addClass_conflict_spec sampleDb 10 "C" ⟨"ClassC", ⟨2, 2⟩, none⟩ sampleOwner
      sampleDiagram (by decide) (by decide)).2 (by decide)

/-- C5: removeAttribute fails with NotFound when the class element does
not exist or the index is out of range; otherwise it removes exactly the
attribute at the index and shifts every later attribute down by one. -/
theorem removeAttribute_reindex_spec (db : DB) (i : Nat) (cid : String) (idx : Nat)
    (u : User) (d : Diagram) (hd : findDiagram db i = some d) (hacc : canAccess d u) :
    (lookupA (elementsOf d) cid = none →
      (DiagramsService.removeAttribute db i cid idx u).1 =
        Except.error (Err.notFound "Attribute not found")) ∧
    ∀ el, lookupA (elementsOf d) cid = some el →
      ((el.attributes.getD []).length ≤ idx →
        (DiagramsService.removeAttribute db i cid idx u).1 =
          Except.error (Err.notFound "Attribute not found")) ∧
      (idx < (el.attributes.getD []).length →
        ∃ d', (DiagramsService.removeAttribute db i cid idx u).1 = Except.ok d' ∧
          lookupA (elementsOf d') cid =
            some { el with attributes := some (spliceOne (el.attributes.getD []) idx) } ∧
          (spliceOne (el.attributes.getD []) idx).length + 1 =
            (el.attributes.getD []).length ∧
          (∀ j, j < idx →
            nth? (spliceOne (el.attributes.getD []) idx) j =
              nth? (el.attributes.getD []) j) ∧
          (∀ j, idx ≤ j →
            nth? (spliceOne (el.attributes.getD []) idx) j =
              nth? (el.attributes.getD []) (j + 1))) := by
  have hfo := findOne_ok hd hacc
  constructor
  · intro hnone
    simp [DiagramsService.removeAttribute, hfo, hnone]
  · intro el hel
    constructor
    · intro hge
      have hnth : nth? (el.attributes.getD []) idx = none := (nth?_eq_none_iff _ _).mpr hge
      simp [DiagramsService.removeAttribute, hfo, hel, hnth]
    · intro hlt
      obtain ⟨a, ha⟩ := nth?_eq_some_of_lt _ idx hlt
      refine ⟨withElements d (setA (elementsOf d) cid
          { el with attributes := some (spliceOne (el.attributes.getD []) idx) }),
        ?_, ?_, length_spliceOne _ idx hlt,
        fun j hj => nth?_spliceOne_lt _ idx j hj,
        fun j hj => nth?_spliceOne_ge _ idx j hlt hj⟩
      · simp only [DiagramsService.removeAttribute, hfo, hel, ha, withElements]
      · simpa [elementsOf, withElements] using lookupA_setA_self (elementsOf d) cid
          { el with attributes := some (spliceOne (el.attributes.getD []) idx) }

/-- Witness for C5 at the sample database: removing attribute 0 of class A
drops the first of its three attributes and shifts the others down. -/
theorem removeAttribute_reindex_spec_witness :
    ∃ d', (DiagramsService.removeAttribute sampleDb 10 "A" 0 sampleOwner).1 = Except.ok d' ∧
      lookupA (elementsOf d') "A" =
        some { name := some "ClassA", position := some ⟨0, 0⟩,
               attributes := some (spliceOne sampleAttrs 0) } ∧
      (spliceOne sampleAttrs 0).length + 1 = sampleAttrs.length ∧
      (∀ j, j < 0 → nth? (spliceOne sampleAttrs 0) j = nth? sampleAttrs j) ∧
      (∀ j, 0 ≤ j → nth? (spliceOne sampleAttrs 0) j = nth? sampleAttrs (j + 1)) :=
  ((removeAttribute_reindex_spec sampleDb 10 "A" 0 sampleOwner sampleDiagram
      (by decide) (by decide)).2
    { name := some "ClassA", position := some ⟨0, 0⟩, attributes := some sampleAttrs }
    (by decide)).2 (by decide)

/-- Preservation of the owner field by one service call at one diagram
id: every successful result has the owner of the stored diagram. -/
def ownerPreserved (r : Except Err Diagram × DB) (db : DB) (i : Nat) : Prop :=
  ∀ d d', findDiagram db i = some d → r.1 = Except.ok d' → d'.owner = d.owner

/-- C6: the owner of a diagram is immutable: update, remove, shareDiagram
and every document sub-mutation leave the owner field of the resulting
diagram equal to the owner of the stored diagram. -/
theorem owner_immutable_spec (db : DB) (i : Nat) (u : User) (dto : UpdateDiagramDto)
    (target : Nat) (eid : String) (ed : Element) (p : Pos) (cid : String) (a : Attr)
    (ap : AttrPatch) (idx : Nat) (cd : ClassData) (rid : String) (rd : Relation)
    (rp : RelationPatch) :
    ownerPreserved (DiagramsService.update db i dto u) db i ∧
    ownerPreserved (DiagramsService.remove db i u) db i ∧
    ownerPreserved (DiagramsService.shareDiagram db i target u) db i ∧
    ownerPreserved (DiagramsService.updateElement db i eid ed u) db i ∧
    ownerPreserved (DiagramsService.moveElement db i eid p u) db i ∧
    ownerPreserved (DiagramsService.addAttribute db i cid a u) db i ∧
    ownerPreserved (DiagramsService.updateAttribute db i cid idx ap u) db i ∧
    ownerPreserved (DiagramsService.removeAttribute db i cid idx u) db i ∧
    ownerPreserved (DiagramsService.addClass db i cid cd u) db i ∧
    ownerPreserved (DiagramsService.removeClass db i cid u) db i ∧
    ownerPreserved (DiagramsService.addRelation db i rid rd u) db i ∧
    ownerPreserved (DiagramsService.updateRelation db i rid rp u) db i ∧
    ownerPreserved (DiagramsService.removeRelation db i rid u) db i := by
  refine ⟨?_, ?_, ?_, ?_, ?_, ?_, ?_, ?_, ?_, ?_, ?_, ?_, ?_⟩
  · intro d d' hd hok
    unfold DiagramsService.update at hok
    split at hok
    · simp at hok
    · rename_i x heq
      simp only [Except.ok.injEq] at hok
      obtain ⟨hfd, -⟩ := findOne_ok_inv heq
      rw [hd] at hfd
      obtain rfl : d = x := by injection hfd
      subst hok
      rfl
  · intro d d' hd hok
    unfold DiagramsService.remove at hok
    split at hok
    · simp at hok
    · rename_i x heq
      simp only [Except.ok.injEq] at hok
      obtain ⟨hfd, -⟩ := findOne_ok_inv heq
      rw [hd] at hfd
      obtain rfl : d = x := by injection hfd
      subst hok
      rfl
  · intro d d' hd hok
    unfold DiagramsService.shareDiagram at hok
    split at hok
    · simp at hok
    · rename_i x heq
      dsimp only [] at hok
      split at hok
      · split at hok
        · simp at hok
        · simp only [Except.ok.injEq] at hok
          obtain ⟨hfd, -⟩ := findOne_ok_inv heq
          rw [hd] at hfd
          obtain rfl : d = x := by injection hfd
          subst hok
          rfl
      · simp at hok
  · intro d d' hd hok
    unfold DiagramsService.updateElement at hok
    split at hok
    · simp at hok
    · rename_i x heq
      simp only [Except.ok.injEq] at hok
      obtain ⟨hfd, -⟩ := findOne_ok_inv heq
      rw [hd] at hfd
      obtain rfl : d = x := by injection hfd
      subst hok
      rfl
  · intro d d' hd hok
    unfold DiagramsService.moveElement DiagramsService.updateElement at hok
    split at hok
    · simp at hok
    · rename_i x heq
      simp only [Except.ok.injEq] at hok
      obtain ⟨hfd, -⟩ := findOne_ok_inv heq
      rw [hd] at hfd
      obtain rfl : d = x := by injection hfd
      subst hok
      rfl
  · intro d d' hd hok
    unfold DiagramsService.addAttribute at hok
    split at hok
    · simp at hok
    · rename_i x heq
      dsimp only [] at hok
      split at hok
      · simp at hok
      · simp only [Except.ok.injEq] at hok
        obtain ⟨hfd, -⟩ := findOne_ok_inv heq
        rw [hd] at hfd
        obtain rfl : d = x := by injection hfd
        subst hok
        rfl
  · intro d d' hd hok
    unfold DiagramsService.updateAttribute at hok
    split at hok
    · simp at hok
    · rename_i x heq
      dsimp only [] at hok
      split at hok
      · simp at hok
      · split at hok
        · simp at hok
        · simp only [Except.ok.injEq] at hok
          obtain ⟨hfd, -⟩ := findOne_ok_inv heq
          rw [hd] at hfd
          obtain rfl : d = x := by injection hfd
          subst hok
          rfl
  · intro d d' hd hok
    unfold DiagramsService.removeAttribute at hok
    split at hok
    · simp at hok
    · rename_i x heq
      dsimp only [] at hok
      split at hok
      · simp at hok
      · split at hok
        · simp at hok
        · simp only [Except.ok.injEq] at hok
          obtain ⟨hfd, -⟩ := findOne_ok_inv heq
          rw [hd] at hfd
          obtain rfl : d = x := by injection hfd
          subst hok
          rfl
  · intro d d' hd hok
    unfold DiagramsService.addClass at hok
    split at hok
    · simp at hok
    · rename_i x heq
      dsimp only [] at hok
      split at hok
      · simp at hok
      · simp only [Except.ok.injEq] at hok
        obtain ⟨hfd, -⟩ := findOne_ok_inv heq
        rw [hd] at hfd
        obtain rfl : d = x := by injection hfd
        subst hok
        rfl
  · intro d d' hd hok
    unfold DiagramsService.removeClass at hok
    split at hok
    · simp at hok
    · rename_i x heq
      dsimp only [] at hok
      split at hok
      · simp at hok
      · simp only [Except.ok.injEq] at hok
        obtain ⟨hfd, -⟩ := findOne_ok_inv heq
        rw [hd] at hfd
        obtain rfl : d = x := by injection hfd
        subst hok
        rfl
  · intro d d' hd hok
    unfold DiagramsService.addRelation at hok
    split at hok
    · simp at hok
    · rename_i x heq
      dsimp only [] at hok
      split at hok
      · simp at hok
      · simp only [Except.ok.injEq] at hok
        obtain ⟨hfd, -⟩ := findOne_ok_inv heq
        rw [hd] at hfd
        obtain rfl : d = x := by injection hfd
        subst hok
        rfl
  · intro d d' hd hok
    unfold DiagramsService.updateRelation at hok
    split at hok
    · simp at hok
    · rename_i x heq
      dsimp only [] at hok
      split at hok
      · simp at hok
      · simp only [Except.ok.injEq] at hok
        obtain ⟨hfd, -⟩ := findOne_ok_inv heq
        rw [hd] at hfd
        obtain rfl : d = x := by injection hfd
        subst hok
        rfl
  · intro d d' hd hok
    unfold DiagramsService.removeRelation at hok
    split at hok
    · simp at hok
    · rename_i x heq
      dsimp only [] at hok
      split at hok
      · simp at hok
      · simp only [Except.ok.injEq] at hok
        obtain ⟨hfd, -⟩ := findOne_ok_inv heq
        rw [hd] at hfd
        obtain rfl : d = x := by injection hfd
        subst hok
        rfl

/-- Witness for C6 at the sample database: a successful update and a
successful removeClass both keep the owner of the sample diagram. -/
theorem owner_immutable_spec_witness :
    ∀ d', (DiagramsService.update sampleDb 10 { content := some {} } sampleCollab).1 =
        Except.ok d' → d'.owner = sampleDiagram.owner :=
  fun d' hok =>
    (owner_immutable_spec sampleDb 10 sampleCollab { content := some {} } 3 "A"
        {} ⟨1, 1⟩ "A" ⟨"n", "t"⟩ {} 0 ⟨"N", ⟨0, 0⟩, none⟩ "r1" ⟨"A", "B", "t"⟩ {}).1
      sampleDiagram d' (by decide) hok

/-- C7: moveElement is exactly updateElement with a patch holding only the
position, and merging such a patch into any element record replaces only
its position field. -/
theorem moveElement_sugar_spec (db : DB) (i : Nat) (eid : String) (p : Pos) (u : User) :
    DiagramsService.moveElement db i eid p u =
      DiagramsService.updateElement db i eid { position := some p } u ∧
    ∀ el : Element, DiagramsService.mergeElement el { position := some p } =
      { el with position := some p } :=
  ⟨rfl, fun _ => rfl⟩

/-- C8: for a stored diagram and an authorized caller, updateElement
always succeeds: it merges the partial fields into the element record at
the id, merging against an empty record when the id is absent, and leaves
every other element unchanged. -/
theorem updateElement_total_spec (db : DB) (i : Nat) (eid : String) (ed : Element)
    (u : User) (d : Diagram) (hd : findDiagram db i = some d) (hacc : canAccess d u) :
    ∃ d', (DiagramsService.updateElement db i eid ed u).1 = Except.ok d' ∧
      lookupA (elementsOf d') eid =
        some (DiagramsService.mergeElement ((lookupA (elementsOf d) eid).getD {}) ed) ∧
      ∀ k, k ≠ eid → lookupA (elementsOf d') k = lookupA (elementsOf d) k := by
  have hfo := findOne_ok hd hacc
  refine ⟨withElements d (setA (elementsOf d) eid
      (DiagramsService.mergeElement ((lookupA (elementsOf d) eid).getD {}) ed)), ?_, ?_, ?_⟩
  · simp only [DiagramsService.updateElement, hfo, withElements]
  · simpa [elementsOf, withElements] using lookupA_setA_self (elementsOf d) eid
      (DiagramsService.mergeElement ((lookupA (elementsOf d) eid).getD {}) ed)
  · intro k hk
    simpa [elementsOf, withElements] using lookupA_setA_ne (elementsOf d)
      (DiagramsService.mergeElement ((lookupA (elementsOf d) eid).getD {}) ed) hk

/-- Witness for C8 at the sample database: updating element B with a new
name succeeds, stores the merged record, and leaves element A alone. -/
theorem updateElement_total_spec_witness :
    ∃ d', (DiagramsService.updateElement sampleDb 10 "B" { name := some "Renamed" }
        sampleCollab).1 = Except.ok d' ∧
      lookupA (elementsOf d') "B" =
        some (DiagramsService.mergeElement
          ((lookupA (elementsOf sampleDiagram) "B").getD {}) { name := some "Renamed" }) ∧
      ∀ k, k ≠ "B" → lookupA (elementsOf d') k = lookupA (elementsOf sampleDiagram) k :=
  updateElement_total_spec sampleDb 10 "B" { name := some "Renamed" } sampleCollab
    sampleDiagram (by decide) (by decide)

/-- Atomicity of one service call: whenever the call fails, the persisted
database state is exactly the incoming one. -/
def atomicFailure (r : Except Err Diagram × DB) (db : DB) : Prop :=
  ∀ e, r.1 = Except.error e → r.2 = db

/-- C9: every mutation operation is atomic with respect to the persisted
state: whenever a call fails with any error, the database after the call
equals the database before it. -/
theorem atomic_failure_spec (db : DB) (i : Nat) (u : User) (dto : UpdateDiagramDto)
    (target : Nat) (eid : String) (ed : Element) (p : Pos) (cid : String) (a : Attr)
    (ap : AttrPatch) (idx : Nat) (cd : ClassData) (rid : String) (rd : Relation)
    (rp : RelationPatch) :
    atomicFailure (DiagramsService.update db i dto u) db ∧
    atomicFailure (DiagramsService.remove db i u) db ∧
    atomicFailure (DiagramsService.shareDiagram db i target u) db ∧
    atomicFailure (DiagramsService.updateElement db i eid ed u) db ∧
    atomicFailure (DiagramsService.moveElement db i eid p u) db ∧
    atomicFailure (DiagramsService.addAttribute db i cid a u) db ∧
    atomicFailure (DiagramsService.updateAttribute db i cid idx ap u) db ∧
    atomicFailure (DiagramsService.removeAttribute db i cid idx u) db ∧
    atomicFailure (DiagramsService.addClass db i cid cd u) db ∧
    atomicFailure (DiagramsService.removeClass db i cid u) db ∧
    atomicFailure (DiagramsService.addRelation db i rid rd u) db ∧
    atomicFailure (DiagramsService.updateRelation db i rid rp u) db ∧
    atomicFailure (DiagramsService.removeRelation db i rid u) db := by
  refine ⟨?_, ?_, ?_, ?_, ?_, ?_, ?_, ?_, ?_, ?_, ?_, ?_, ?_⟩
  · intro e h
    unfold DiagramsService.update at h ⊢
    split at h
    · rename_i e2 heq
      simp [heq]
    · simp at h
  · intro e h
    unfold DiagramsService.remove at h ⊢
    split at h
    · rename_i e2 heq
      simp [heq]
    · simp at h
  · intro e h
    unfold DiagramsService.shareDiagram at h ⊢
    split at h
    · rename_i e2 heq
      simp [heq]
    · rename_i x heq
      dsimp only [] at h
      split at h
      · rename_i hown
        split at h
        · rename_i hfu
          simp [heq, hown, hfu]
        · simp at h
      · rename_i hown
        simp [heq, hown]
  · intro e h
    unfold DiagramsService.updateElement at h ⊢
    split at h
    · rename_i e2 heq
      simp [heq]
    · simp at h
  · intro e h
    unfold DiagramsService.moveElement DiagramsService.updateElement at h ⊢
    split at h
    · rename_i e2 heq
      simp [heq]
    · simp at h
  · intro e h
    unfold DiagramsService.addAttribute at h ⊢
    split at h
    · rename_i e2 heq
      simp [heq]
    · rename_i x heq
      dsimp only [] at h
      split at h
      · rename_i hlk
        simp [heq, hlk]
      · simp at h
  · intro e h
    unfold DiagramsService.updateAttribute at h ⊢
    split at h
    · rename_i e2 heq
      simp [heq]
    · rename_i x heq
      dsimp only [] at h
      split at h
      · rename_i hlk
        simp [heq, hlk]
      · rename_i c hlk
        split at h
        · rename_i hnth
          simp [heq, hlk, hnth]
        · simp at h
  · intro e h
    unfold DiagramsService.removeAttribute at h ⊢
    split at h
    · rename_i e2 heq
      simp [heq]
    · rename_i x heq
      dsimp only [] at h
      split at h
      · rename_i hlk
        simp [heq, hlk]
      · rename_i c hlk
        split at h
        · rename_i hnth
          simp [heq, hlk, hnth]
        · simp at h
  · intro e h
    unfold DiagramsService.addClass at h ⊢
    split at h
    · rename_i e2 heq
      simp [heq]
    · rename_i x heq
      dsimp only [] at h
      split at h
      · rename_i c hlk
        simp [heq, hlk]
      · simp at h
  · intro e h
    unfold DiagramsService.removeClass at h ⊢
    split at h
    · rename_i e2 heq
      simp [heq]
    · rename_i x heq
      dsimp only [] at h
      split at h
      · rename_i hlk
        simp [heq, hlk]
      · simp at h
  · intro e h
    unfold DiagramsService.addRelation at h ⊢
    split at h
    · rename_i e2 heq
      simp [heq]
    · rename_i x heq
      dsimp only [] at h
      split at h
      · rename_i c hlk
        simp [heq, hlk]
      · simp at h
  · intro e h
    unfold DiagramsService.updateRelation at h ⊢
    split at h
    · rename_i e2 heq
      simp [heq]
    · rename_i x heq
      dsimp only [] at h
      split at h
      · rename_i hlk
        simp [heq, hlk]
      · simp at h
  · intro e h
    unfold DiagramsService.removeRelation at h ⊢
    split at h
    · rename_i e2 heq
      simp [heq]
    · rename_i x heq
      dsimp only [] at h
      split at h
      · rename_i hlk
        simp [heq, hlk]
      · simp at h

/-- Witness for C9 at the sample database: a rejected duplicate addClass
and a Forbidden findOne inside removeRelation both leave the database
unchanged. -/
theorem atomic_failure_spec_witness :
    (DiagramsService.addClass sampleDb 10 "A" ⟨"Again", ⟨0, 0⟩, none⟩ sampleOwner).2 =
      sampleDb ∧
    (DiagramsService.removeRelation sampleDb 10 "r1" sampleStranger).2 = sampleDb :=
  ⟨(atomic_failure_spec sampleDb 10 sampleOwner {} 3 "A" {} ⟨1, 1⟩ "A" ⟨"n", "t"⟩
        {} 0 ⟨"Again", ⟨0, 0⟩, none⟩ "r1" ⟨"A", "B", "t"⟩ {}).2.2.2.2.2.2.2.2.1
      (Err.error "Class already exists") (by decide),
   (atomic_failure_spec sampleDb 10 sampleStranger {} 3 "A" {} ⟨1, 1⟩ "A" ⟨"n", "t"⟩
        {} 0 ⟨"Again", ⟨0, 0⟩, none⟩ "r1" ⟨"A", "B", "t"⟩ {}).2.2.2.2.2.2.2.2.2.2.2.2
      (Err.forbidden "Access denied") (by decide)⟩

/-- C10: the document can come to hold an element record missing the name
and attributes fields: moving an element id that is absent from the
elements map creates a record containing only a position. -/
theorem bare_element_record_spec :
    ∃ d', (DiagramsService.moveElement emptyDb 100 "ghost" ⟨5, 7⟩ sampleOwner).1 =
        Except.ok d' ∧
      lookupA (elementsOf d') "ghost" =
        some { name := none, position := some ⟨5, 7⟩, attributes := none } ∧
      ∃ el, lookupA (elementsOf d') "ghost" = some el ∧ el.name = none ∧
        el.attributes = none := by
  refine ⟨withElements emptyDiagram
      [("ghost", { name := none, position := some ⟨5, 7⟩, attributes := none })],
    by decide, by decide, ?_⟩
  exact ⟨{ name := none, position := some ⟨5, 7⟩, attributes := none }, by decide, rfl, rfl⟩

end Diagrams
